import Mathlib

/-!
Shallow embedding of the mail.tm bulk account creator.

The repository contains two realizations of the provisioning pipeline:
* a Mastra workflow (`automationWorkflow` with step `createSingleAccount`
  driving the tool `createMailTmAccount`, and the aggregator tool
  `exportAccountsToFile`), and
* a standalone CLI script (`createAccount`, `pad`, `checkAccountExists`,
  and the batch loop inside `main`).

Network interaction is modelled by an `AttemptBehavior` describing what a
single HTTP call does (a response with a status, a body text and, for
successful creations, the upstream account id, or a thrown network error).
A whole retry loop consumes a stream `Nat → AttemptBehavior` indexed by the
attempt counter the source uses (0-based for the workflow step, 1-based for
the CLI script).  Sleeps are accounted for as accumulated milliseconds-as-Nat.
-/

set_option maxRecDepth 10000

namespace MailTm

/-- What the upstream does on one HTTP call: either a response (status,
body text, and the `id` field of the JSON body when present) or a thrown
network/transport error with a message. -/
inductive AttemptBehavior where
  | response (status : Nat) (body : String) (ident : String)
  | networkError (msg : String)
deriving DecidableEq

/-- The fetch API's `res.ok`: status in the range 200-299. -/
def isOk (status : Nat) : Bool := 200 ≤ status && status ≤ 299

/-- Helper for `hasSubstr`: does `needle` occur at the very start of the list? -/
def matchesAt : List Char → List Char → Bool
  | _, [] => true
  | [], _ :: _ => false
  | a :: as, b :: bs => a = b && matchesAt as bs

/-- Helper for `hasSubstr`: does `needle` occur anywhere in the list? -/
def hasSubstrList : List Char → List Char → Bool
  | [], needle => needle.isEmpty
  | a :: as, needle => matchesAt (a :: as) needle || hasSubstrList as needle

/-- JavaScript's `String.prototype.includes`. -/
def hasSubstr (hay needle : String) : Bool := hasSubstrList hay.toList needle.toList

/-- Helper for `decRepr`: big-endian decimal digits accumulated onto `acc`;
`fuel` bounds the recursion (any `fuel > n` is enough). -/
def decReprAux : Nat → Nat → List Char → List Char
  | 0, _, acc => acc
  | fuel + 1, n, acc =>
      let d := Nat.digitChar (n % 10)
      if n / 10 = 0 then d :: acc else decReprAux fuel (n / 10) (d :: acc)

/-- JavaScript's `String(num)` on a nonnegative integer: its decimal digits. -/
def decRepr (n : Nat) : String := String.mk (decReprAux (n + 1) n [])

/-- Number of decimal digits of `n` (the length of `decRepr n`). -/
def digitLen (n : Nat) : Nat :=
  if n < 10 then 1 else digitLen (n / 10) + 1
termination_by n
decreasing_by exact Nat.div_lt_self (by omega) (by omega)

/-- A target identity: full address plus the shared password
(the spec's ProvisionRequest). -/
structure ProvisionRequest where
  address : String
  password : String
deriving DecidableEq

/-- The record returned by the workflow tool `createMailTmAccount`
(and by the workflow step `createSingleAccount`). -/
structure AccountResult where
  address : String
  password : String
  success : Bool
  accountId : String
  message : String
deriving DecidableEq

/-- The record returned by the CLI script's `createAccount`. -/
structure CliResult where
  address : String
  password : String
  success : Bool
  message : String
deriving DecidableEq

/-- The tool `createMailTmAccount` (src/src/mastra/tools/mailTmTool.ts):
one POST /accounts call, classified.  `b` is what the upstream did. -/
def createMailTmAccount (address password : String) (b : AttemptBehavior) :
    AccountResult :=
  match b with
  | .networkError msg =>
      ⟨address, password, false, "", "Error: " ++ msg⟩
  | .response status body ident =>
      if !(isOk status) then
        if status = 422 && hasSubstr body "already used" then
          ⟨address, password, true, "already-exists", "Account already exists"⟩
        else
          ⟨address, password, false, "",
            "Failed: " ++ decRepr status ++ " - " ++ body⟩
      else
        ⟨address, password, true, ident, "Account created successfully"⟩

/-- Terminal state of the workflow retry step: the returned record, the
number of creation calls performed, and the total milliseconds slept. -/
structure GovRun where
  result : AccountResult
  attempts : Nat
  totalSleep : Nat
deriving DecidableEq

/-- Loop body of the workflow step `createSingleAccount`
(src/unnamed/part_001, `for (let attempt = 0; attempt <= maxRetries; ...)`).
State: current `attempt`, milliseconds slept so far, and remaining loop
iterations (`fuel = maxRetries + 1 - attempt` at entry).  The fuel-0 case is
the code after the loop (`Max retries exceeded due to rate limiting`). -/
def singleAux (address password : String) (stream : Nat → AttemptBehavior)
    (delay0 maxRetries : Nat) : Nat → Nat → Nat → GovRun
  | _attempt, slept, 0 =>
      ⟨⟨address, password, false, "", "Max retries exceeded due to rate limiting"⟩,
        maxRetries + 1, slept⟩
  | attempt, slept, fuel + 1 =>
      let delay := if attempt = 0 then delay0 else delay0 * 2 ^ (attempt - 1)
      let slept' := slept + delay
      let r := createMailTmAccount address password (stream attempt)
      if r.success then ⟨r, attempt + 1, slept'⟩
      else if hasSubstr r.message "429" && decide (attempt < maxRetries) then
        singleAux address password stream delay0 maxRetries (attempt + 1) slept' fuel
      else ⟨r, attempt + 1, slept'⟩

/-- The workflow step `createSingleAccount` (src/unnamed/part_001): retry
governor with initial pacing `delay0` (3000 ms in the source) and retry
budget `maxRetries` (7 in the source), retrying results whose message
contains "429". -/
def createSingleAccount (address password : String)
    (stream : Nat → AttemptBehavior) (delay0 maxRetries : Nat) : GovRun :=
  singleAux address password stream delay0 maxRetries 0 0 (maxRetries + 1)

/-- Terminal state of the CLI script's `createAccount`: the returned record,
the number of creation calls performed, and the total milliseconds slept. -/
structure CliRun where
  result : CliResult
  attempts : Nat
  totalSleep : Nat
deriving DecidableEq

/-- Loop body of the CLI `createAccount` (src/unnamed/part_003,
`for (let attempt = 1; attempt <= retries; ...)`).  State: current
`attempt` (1-based), current backoff `delay` (doubled after each retryable
outcome), milliseconds slept so far, remaining loop iterations
(`fuel = retries + 1 - attempt` at entry).  The fuel-0 case is the code
after the loop (`Max retries reached`). -/
def cliAux (address password : String) (stream : Nat → AttemptBehavior)
    (retries : Nat) : Nat → Nat → Nat → Nat → CliRun
  | _attempt, _delay, slept, 0 =>
      ⟨⟨address, password, false, "Max retries reached"⟩, retries, slept⟩
  | attempt, delay, slept, fuel + 1 =>
      match stream attempt with
      | .networkError msg =>
          if attempt = retries then ⟨⟨address, password, false, msg⟩, attempt, slept⟩
          else cliAux address password stream retries
            (attempt + 1) (delay * 2) (slept + delay) fuel
      | .response status body _ident =>
          if isOk status then
            ⟨⟨address, password, true, "Created"⟩, attempt, slept⟩
          else if status = 422 && hasSubstr body "already used" then
            ⟨⟨address, password, true, "Already exists"⟩, attempt, slept⟩
          else if status = 429 then
            cliAux address password stream retries
              (attempt + 1) (delay * 2) (slept + delay) fuel
          else
            ⟨⟨address, password, false,
              "HTTP " ++ decRepr status ++ ": " ++ body⟩, attempt, slept⟩

/-- The CLI script's `createAccount` (src/unnamed/part_003): retry loop with
budget `retries` (default 7) and initial backoff `delay0` (3000 ms in the
first script copy, 1500 ms in the second), doubling after every retryable
outcome.  No sleep is paid before the first attempt. -/
def createAccount (address password : String) (stream : Nat → AttemptBehavior)
    (retries delay0 : Nat) : CliRun :=
  cliAux address password stream retries 1 delay0 0 retries

/-- The CLI script's `checkAccountExists` (src/unnamed/part_003): POST /token,
return `res.ok`, and `false` on any thrown error. -/
def checkAccountExists (_address _password : String) (b : AttemptBehavior) : Bool :=
  match b with
  | .response status _ _ => isOk status
  | .networkError _ => false

/-- The CLI script's `pad` helper, recursion bounded by `fuel`
(src/unnamed/part_003: `while (s.length < size) s = "0" + s`). -/
def padAux (size : Nat) : Nat → String → String
  | 0, s => s
  | fuel + 1, s => if s.length < size then padAux size fuel ("0" ++ s) else s

/-- The CLI script's `pad(num, size)`: zero-pad the decimal form of `num`
on the left until its length reaches `size`.  `size` steps of fuel always
suffice for the source's while loop. -/
def pad (num size : Nat) : String := padAux size size (decRepr num)

/-- The CLI script's pad width
(`String(count).length < 2 ? 2 : String(count).length`). -/
def padSizeFor (count : Nat) : Nat :=
  if (decRepr count).length < 2 then 2 else (decRepr count).length

/-- The address generation of the CLI script's `main` loop:
`${baseUsername}${pad(i, padSize)}@${domain}` for `i = 1 .. count`. -/
def genAddresses (base dom : String) (count : Nat) : List String :=
  (List.range count).map (fun i => base ++ pad (i + 1) (padSizeFor count) ++ "@" ++ dom)

/-- A string of `k` zero characters (the padding `pad` prepends). -/
def zeros (k : Nat) : String := String.mk (List.replicate k '0')

/-- The spec's Outcome taxonomy for a single creation attempt.  The source
realizes outcomes only as success flags and messages; this tagged type is
the claims' vocabulary for classifying one `AttemptBehavior`. -/
inductive Outcome where
  | created (ident : String)
  | alreadyExists
  | rateLimited
  | transientError (msg : String)
  | permanentFailure (msg : String)
deriving DecidableEq

/-- Classification of one attempt behavior into the spec's Outcome taxonomy,
following the branch structure of `createMailTmAccount` (2xx → Created,
422 + "already used" → AlreadyExists, 429 → RateLimited, 5xx or thrown
network error → TransientError, anything else → PermanentFailure). -/
def classify (b : AttemptBehavior) : Outcome :=
  match b with
  | .networkError msg => .transientError msg
  | .response status body ident =>
      if !(isOk status) then
        if status = 422 && hasSubstr body "already used" then .alreadyExists
        else if status = 429 then .rateLimited
        else if 500 ≤ status && status ≤ 599 then .transientError body
        else .permanentFailure body
      else .created ident

/-- Success class of an outcome: Created and AlreadyExists count as success,
everything else as failure. -/
def isSuccessOutcome : Outcome → Bool
  | .created _ => true
  | .alreadyExists => true
  | _ => false

/-- Counts computed by the tool `exportAccountsToFile`
(src/src/mastra/tools/mailTmTool.ts): partition of the input records on the
`success` flag.  The rendered text and timestamp are presentation only and
are not modelled. -/
structure ExportSummary where
  totalCreated : Nat
  totalFailed : Nat
deriving DecidableEq

/-- The tool `exportAccountsToFile`, restricted to its counts
(`successfulAccounts.length` and `failedAccounts.length`). -/
def exportAccountsToFile (accounts : List AccountResult) : ExportSummary :=
  ⟨(accounts.filter (fun a => a.success)).length,
   (accounts.filter (fun a => !a.success)).length⟩

/-- The report assembled by the CLI script's `main` loop: the `results`
array in order, plus the `successCount` / `failCount` counters. -/
structure BatchReport where
  results : List CliResult
  successCount : Nat
  failCount : Nat
deriving DecidableEq

/-- The CLI script's `main` batch loop (src/unnamed/part_003): for each
request in order, run `createAccount` and append its record, bumping one
of the two counters.  Each request is paired with the behavior stream its
creation attempts will see. -/
def runBatch (items : List (ProvisionRequest × (Nat → AttemptBehavior)))
    (retries delay0 : Nat) : BatchReport :=
  match items with
  | [] => ⟨[], 0, 0⟩
  | it :: rest =>
      let r := (createAccount it.1.address it.1.password it.2 retries delay0).result
      let rep := runBatch rest retries delay0
      ⟨r :: rep.results,
       (if r.success then 1 else 0) + rep.successCount,
       (if r.success then 0 else 1) + rep.failCount⟩

/-- An upstream that answers HTTP 429 on every call. -/
def rateLimitedResp : AttemptBehavior := .response 429 "rate limited" ""

/-- An upstream response that creates the account (HTTP 201). -/
def createdResp : AttemptBehavior := .response 201 "" "acct-1"

/-- An upstream response in the 5xx range. -/
def serverErrorResp : AttemptBehavior := .response 500 "internal error" ""

/-- A thrown network/transport error. -/
def netFail : AttemptBehavior := .networkError "fetch failed"

/-- Every attempt is rate limited. -/
def allRateLimited : Nat → AttemptBehavior := fun _ => rateLimitedResp

/-- Attempts with index below `k` are rate limited, the rest succeed. -/
def rateThenCreated (k : Nat) : Nat → AttemptBehavior :=
  fun j => if j < k then rateLimitedResp else createdResp

/-- Attempts with index below `k` are rate limited, the rest answer
HTTP 422 with the given body and id. -/
def rateThenDup (k : Nat) (body ident : String) : Nat → AttemptBehavior :=
  fun j => if j < k then rateLimitedResp else .response 422 body ident

/-- Attempts with index at most `k` throw a network error, the rest succeed. -/
def netErrThenCreated (k : Nat) : Nat → AttemptBehavior :=
  fun j => if j ≤ k then netFail else createdResp

theorem string_ext {s t : String} (h : s.data = t.data) : s = t := by
  cases s; cases t; cases h; rfl

theorem digitLen_eq (n : Nat) :
    digitLen n = if n < 10 then 1 else digitLen (n / 10) + 1 := by
  rw [digitLen]

theorem digitLen_pos (n : Nat) : 1 ≤ digitLen n := by
  rw [digitLen_eq]; split <;> omega

theorem digitLen_mono : ∀ n m : Nat, m ≤ n → digitLen m ≤ digitLen n := by
  intro n
  induction n using Nat.strong_induction_on with
  | _ n ih =>
    intro m hmn
    by_cases hn : n < 10
    · have hm : m < 10 := by omega
      rw [digitLen_eq m, if_pos hm, digitLen_eq n, if_pos hn]
    · by_cases hm : m < 10
      · calc digitLen m = 1 := by rw [digitLen_eq m, if_pos hm]
          _ ≤ digitLen n := digitLen_pos n
      · rw [digitLen_eq m, if_neg hm, digitLen_eq n, if_neg hn]
        have h1 : n / 10 < n := Nat.div_lt_self (by omega) (by omega)
        have h2 : m / 10 ≤ n / 10 := Nat.div_le_div_right hmn
        exact Nat.add_le_add_right (ih (n / 10) h1 (m / 10) h2) 1

theorem decReprAux_length :
    ∀ fuel n acc, n < fuel →
      (decReprAux fuel n acc).length = digitLen n + acc.length := by
  intro fuel
  induction fuel with
  | zero => intro n acc h; omega
  | succ fuel ih =>
    intro n acc h
    by_cases h0 : n / 10 = 0
    · have hn : n < 10 := (Nat.div_eq_zero_iff (by omega)).mp h0
      simp [decReprAux, h0, digitLen_eq n, hn]
      omega
    · have hn : ¬ n < 10 := by
        intro hc; exact h0 ((Nat.div_eq_zero_iff (by omega)).mpr hc)
      have hlt : n / 10 < fuel := by
        have : n / 10 < n := Nat.div_lt_self (by omega) (by omega)
        omega
      simp only [decReprAux]
      rw [if_neg h0, ih (n / 10) _ hlt, digitLen_eq n, if_neg hn]
      simp [Nat.add_comm, Nat.add_assoc, Nat.add_left_comm]

theorem decRepr_length (n : Nat) : (decRepr n).length = digitLen n := by
  have := decReprAux_length (n + 1) n [] (by omega)
  simpa [decRepr] using this

theorem padAux_data (size : Nat) :
    ∀ fuel s, size ≤ s.length + fuel →
      (padAux size fuel s).data = List.replicate (size - s.length) '0' ++ s.data := by
  intro fuel
  induction fuel with
  | zero =>
    intro s h
    have : size - s.length = 0 := by omega
    simp [padAux, this]
  | succ fuel ih =>
    intro s h
    by_cases hlt : s.length < size
    · have h01 : ("0" : String).length = 1 := rfl
      have hlen : ("0" ++ s).length = s.length + 1 := by
        rw [String.length_append]; omega
      have hrec := ih ("0" ++ s) (by omega)
      rw [padAux, if_pos hlt, hrec, hlen]
      have hdata : ("0" ++ s).data = '0' :: s.data := by
        rw [String.data_append]; rfl
      rw [hdata]
      have hk : size - s.length = (size - (s.length + 1)) + 1 := by omega
      rw [hk, List.replicate_succ' (size - (s.length + 1)) '0',
        List.append_assoc, List.singleton_append]
    · have hz : size - s.length = 0 := by omega
      rw [padAux, if_neg hlt, hz]
      simp

theorem pad_data (num size : Nat) :
    (pad num size).data
      = List.replicate (size - digitLen num) '0' ++ (decRepr num).data := by
  have h := padAux_data size size (decRepr num) (by omega)
  rw [pad, h, decRepr_length]

theorem pad_eq_zeros (num size : Nat) :
    pad num size = zeros (size - digitLen num) ++ decRepr num := by
  apply string_ext
  rw [pad_data]
  have : (zeros (size - digitLen num) ++ decRepr num).data
      = List.replicate (size - digitLen num) '0' ++ (decRepr num).data := by
    rw [String.data_append]; rfl
  rw [this]

theorem pad_length (num size : Nat) (h : digitLen num ≤ size) :
    (pad num size).length = size := by
  have hd := pad_data num size
  have : (pad num size).length = (pad num size).data.length := rfl
  rw [this, hd, List.length_append, List.length_replicate]
  have : (decRepr num).data.length = (decRepr num).length := rfl
  rw [this, decRepr_length]
  omega

theorem padSizeFor_ge_two (count : Nat) : 2 ≤ padSizeFor count := by
  rw [padSizeFor]; split <;> omega

theorem digitLen_le_padSizeFor {i count : Nat} (h : i ≤ count) :
    digitLen i ≤ padSizeFor count := by
  have h1 : digitLen i ≤ digitLen count := digitLen_mono count i h
  have h2 : digitLen count ≤ padSizeFor count := by
    rw [padSizeFor, decRepr_length]; split <;> omega
  omega

theorem createMailTmAccount_address (a p : String) (b : AttemptBehavior) :
    (createMailTmAccount a p b).address = a := by
  cases b with
  | networkError msg => rfl
  | response status body ident =>
    simp only [createMailTmAccount]
    split <;> [skip; rfl]
    split <;> rfl

theorem createMailTmAccount_password (a p : String) (b : AttemptBehavior) :
    (createMailTmAccount a p b).password = p := by
  cases b with
  | networkError msg => rfl
  | response status body ident =>
    simp only [createMailTmAccount]
    split <;> [skip; rfl]
    split <;> rfl

theorem singleAux_address (a p : String) (s : Nat → AttemptBehavior)
    (delay0 maxRetries : Nat) :
    ∀ fuel attempt slept,
      (singleAux a p s delay0 maxRetries attempt slept fuel).result.address = a
      ∧ (singleAux a p s delay0 maxRetries attempt slept fuel).result.password = p := by
  intro fuel
  induction fuel with
  | zero => intro attempt slept; exact ⟨rfl, rfl⟩
  | succ fuel ih =>
    intro attempt slept
    simp only [singleAux]
    split
    · exact ⟨createMailTmAccount_address a p _, createMailTmAccount_password a p _⟩
    · split
      · exact ih (attempt + 1) _
      · exact ⟨createMailTmAccount_address a p _, createMailTmAccount_password a p _⟩

theorem cliAux_address (a p : String) (s : Nat → AttemptBehavior) (retries : Nat) :
    ∀ fuel attempt delay slept,
      (cliAux a p s retries attempt delay slept fuel).result.address = a
      ∧ (cliAux a p s retries attempt delay slept fuel).result.password = p := by
  intro fuel
  induction fuel with
  | zero => intro attempt delay slept; exact ⟨rfl, rfl⟩
  | succ fuel ih =>
    intro attempt delay slept
    simp only [cliAux]
    split
    · split
      · exact ⟨rfl, rfl⟩
      · exact ih (attempt + 1) (delay * 2) (slept + delay)
    · split
      · exact ⟨rfl, rfl⟩
      · split
        · exact ⟨rfl, rfl⟩
        · split
          · exact ih (attempt + 1) (delay * 2) (slept + delay)
          · exact ⟨rfl, rfl⟩

theorem success_eq_classify (a p : String) (b : AttemptBehavior) :
    (createMailTmAccount a p b).success = isSuccessOutcome (classify b) := by
  cases b with
  | networkError msg => rfl
  | response status body ident =>
    simp only [createMailTmAccount, classify]
    split
    · split
      · rfl
      · split <;> [rfl; skip]
        split <;> rfl
    · rfl

theorem head_ne_imp_beq_false {s t : String} {c d : Char}
    (hs : s.data.head? = some c) (ht : t.data.head? = some d) (hcd : c ≠ d) :
    (s == t) = false := by
  apply beq_eq_false_iff_ne.mpr
  intro h
  rw [h, ht] at hs
  apply hcd
  injection hs with h2
  exact h2.symm

theorem createMailTmAccount_message_ne_dead (a p : String) (b : AttemptBehavior) :
    ((createMailTmAccount a p b).message
      == "Max retries exceeded due to rate limiting") = false := by
  have htgt : ("Max retries exceeded due to rate limiting" : String).data.head?
      = some 'M' := rfl
  cases b with
  | networkError msg =>
    have hs : (("Error: " ++ msg : String)).data.head? = some 'E' := by
      rw [String.data_append]; rfl
    exact head_ne_imp_beq_false hs htgt (by decide)
  | response status body ident =>
    simp only [createMailTmAccount]
    split
    · split
      · rfl
      · have hs : (("Failed: " ++ decRepr status ++ " - " ++ body : String)).data.head?
            = some 'F' := by
          rw [String.data_append, String.data_append, String.data_append]; rfl
        exact head_ne_imp_beq_false hs htgt (by decide)
    · rfl

theorem singleAux_message_ne_dead (a p : String) (s : Nat → AttemptBehavior)
    (delay0 maxRetries : Nat) :
    ∀ fuel attempt slept, attempt + fuel = maxRetries + 1 → attempt ≤ maxRetries →
      (((singleAux a p s delay0 maxRetries attempt slept fuel).result.message
        == "Max retries exceeded due to rate limiting") = false) := by
  intro fuel
  induction fuel with
  | zero => intro attempt slept h1 h2; omega
  | succ fuel ih =>
    intro attempt slept h1 h2
    simp only [singleAux]
    split
    · exact createMailTmAccount_message_ne_dead a p _
    · split
      next hcond =>
        have hlt : attempt < maxRetries := by
          have := (Bool.and_eq_true _ _).mp hcond
          exact of_decide_eq_true this.2
        exact ih (attempt + 1) _ (by omega) (by omega)
      next => exact createMailTmAccount_message_ne_dead a p _

theorem singleAux_sleep_le (a p : String) (s : Nat → AttemptBehavior)
    (delay0 maxRetries : Nat) :
    ∀ fuel attempt slept, 1 ≤ attempt →
      (singleAux a p s delay0 maxRetries attempt slept fuel).totalSleep
        ≤ slept + (delay0 * 2 ^ (attempt - 1)) * (2 ^ fuel - 1) := by
  intro fuel
  induction fuel with
  | zero => intro attempt slept _; simp [singleAux]
  | succ fuel ih =>
    intro attempt slept h1
    obtain ⟨a', rfl⟩ : ∃ a', attempt = a' + 1 := ⟨attempt - 1, by omega⟩
    have hdel : (if a' + 1 = 0 then delay0 else delay0 * 2 ^ (a' + 1 - 1))
        = delay0 * 2 ^ a' := by simp
    have hone : 1 ≤ 2 ^ fuel := Nat.one_le_two_pow
    obtain ⟨e, he⟩ : ∃ e, 2 ^ fuel = e + 1 := ⟨2 ^ fuel - 1, by omega⟩
    have hsucc : 2 ^ (fuel + 1) = 2 * (e + 1) := by
      rw [pow_succ, he]; ring
    simp only [singleAux, hdel]
    split
    · show slept + delay0 * 2 ^ a'
          ≤ slept + delay0 * 2 ^ (a' + 1 - 1) * (2 ^ (fuel + 1) - 1)
      simp only [Nat.add_sub_cancel, hsucc]
      have : delay0 * 2 ^ a' * 1 ≤ delay0 * 2 ^ a' * (2 * (e + 1) - 1) :=
        Nat.mul_le_mul_left _ (by omega)
      omega
    · split
      · have hrec := ih (a' + 2) (slept + delay0 * 2 ^ a') (by omega)
        refine le_trans hrec ?_
        apply le_of_eq
        have h2 : a' + 2 - 1 = a' + 1 := by omega
        rw [h2, he]
        simp only [Nat.add_sub_cancel, hsucc]
        have h3 : 2 * (e + 1) - 1 = 2 * e + 1 := by omega
        rw [h3, pow_succ]
        ring
      · show slept + delay0 * 2 ^ a'
            ≤ slept + delay0 * 2 ^ (a' + 1 - 1) * (2 ^ (fuel + 1) - 1)
        simp only [Nat.add_sub_cancel, hsucc]
        have : delay0 * 2 ^ a' * 1 ≤ delay0 * 2 ^ a' * (2 * (e + 1) - 1) :=
          Nat.mul_le_mul_left _ (by omega)
        omega

theorem cliAux_step_rl (a p : String) (s : Nat → AttemptBehavior)
    (retries attempt delay slept fuel : Nat) (h0 : s attempt = rateLimitedResp) :
    cliAux a p s retries attempt delay slept (fuel + 1)
      = cliAux a p s retries (attempt + 1) (delay * 2) (slept + delay) fuel := by
  simp only [cliAux, h0, rateLimitedResp]
  rw [if_neg (by decide), if_neg (by decide), if_pos (by decide)]

theorem cliAux_step_net (a p : String) (s : Nat → AttemptBehavior)
    (retries attempt delay slept fuel : Nat) (h0 : s attempt = netFail)
    (hne : attempt ≠ retries) :
    cliAux a p s retries attempt delay slept (fuel + 1)
      = cliAux a p s retries (attempt + 1) (delay * 2) (slept + delay) fuel := by
  simp only [cliAux, h0, netFail]
  rw [if_neg hne]

theorem backoff_sum (delay : Nat) (d : Nat) :
    slept + delay + delay * 2 * (2 ^ d - 1) = slept + delay * (2 ^ (d + 1) - 1) := by
  have h1 : 1 ≤ 2 ^ d := Nat.one_le_two_pow
  obtain ⟨e, he⟩ : ∃ e, 2 ^ d = e + 1 := ⟨2 ^ d - 1, by omega⟩
  rw [he, pow_succ, he]
  simp only [Nat.add_sub_cancel]
  have h3 : (e + 1) * 2 - 1 = 2 * e + 1 := by omega
  rw [h3]
  ring

theorem cliAux_skip_rl (a p : String) (s : Nat → AttemptBehavior) (retries : Nat) :
    ∀ d attempt delay slept fuel,
      (∀ j, attempt ≤ j → j < attempt + d → s j = rateLimitedResp) →
      d < fuel →
      cliAux a p s retries attempt delay slept fuel
        = cliAux a p s retries (attempt + d) (delay * 2 ^ d)
            (slept + delay * (2 ^ d - 1)) (fuel - d) := by
  intro d
  induction d with
  | zero => intro attempt delay slept fuel _ _; simp
  | succ d ih =>
    intro attempt delay slept fuel hs hd
    obtain ⟨f, rfl⟩ : ∃ f, fuel = f + 1 := ⟨fuel - 1, by omega⟩
    have h0 : s attempt = rateLimitedResp := hs attempt le_rfl (by omega)
    have hrec := ih (attempt + 1) (delay * 2) (slept + delay) f
      (fun j hj1 hj2 => hs j (by omega) (by omega)) (by omega)
    rw [cliAux_step_rl a p s retries attempt delay slept f h0, hrec,
      show attempt + 1 + d = attempt + (d + 1) from by omega,
      show delay * 2 * 2 ^ d = delay * 2 ^ (d + 1) from by rw [pow_succ]; ring,
      backoff_sum,
      show f - d = f + 1 - (d + 1) from by omega]

theorem cliAux_skip_net (a p : String) (s : Nat → AttemptBehavior) (retries : Nat) :
    ∀ d attempt delay slept fuel,
      (∀ j, attempt ≤ j → j < attempt + d → s j = netFail) →
      d < fuel →
      attempt + d ≤ retries →
      cliAux a p s retries attempt delay slept fuel
        = cliAux a p s retries (attempt + d) (delay * 2 ^ d)
            (slept + delay * (2 ^ d - 1)) (fuel - d) := by
  intro d
  induction d with
  | zero => intro attempt delay slept fuel _ _ _; simp
  | succ d ih =>
    intro attempt delay slept fuel hs hd hr
    obtain ⟨f, rfl⟩ : ∃ f, fuel = f + 1 := ⟨fuel - 1, by omega⟩
    have h0 : s attempt = netFail := hs attempt le_rfl (by omega)
    have hrec := ih (attempt + 1) (delay * 2) (slept + delay) f
      (fun j hj1 hj2 => hs j (by omega) (by omega)) (by omega) (by omega)
    rw [cliAux_step_net a p s retries attempt delay slept f h0 (by omega), hrec,
      show attempt + 1 + d = attempt + (d + 1) from by omega,
      show delay * 2 * 2 ^ d = delay * 2 ^ (d + 1) from by rw [pow_succ]; ring,
      backoff_sum,
      show f - d = f + 1 - (d + 1) from by omega]

theorem runBatch_length (items : List (ProvisionRequest × (Nat → AttemptBehavior)))
    (retries delay0 : Nat) :
    (runBatch items retries delay0).results.length = items.length := by
  induction items with
  | nil => rfl
  | cons it rest ih => simp [runBatch, ih]

theorem runBatch_counts (items : List (ProvisionRequest × (Nat → AttemptBehavior)))
    (retries delay0 : Nat) :
    (runBatch items retries delay0).successCount
      + (runBatch items retries delay0).failCount = items.length := by
  induction items with
  | nil => rfl
  | cons it rest ih =>
    simp only [runBatch, List.length_cons]
    split <;> omega

theorem runBatch_getElem (items : List (ProvisionRequest × (Nat → AttemptBehavior)))
    (retries delay0 : Nat) :
    ∀ i : Nat, (runBatch items retries delay0).results[i]?
      = items[i]?.map
          (fun (it : ProvisionRequest × (Nat → AttemptBehavior)) =>
            (createAccount it.1.address it.1.password it.2 retries delay0).result) := by
  induction items with
  | nil => intro i; rfl
  | cons it rest ih =>
    intro i
    cases i with
    | zero => simp [runBatch]
    | succ i => simpa [runBatch] using ih i

theorem createAccount_address (a p : String) (s : Nat → AttemptBehavior)
    (retries delay0 : Nat) :
    (createAccount a p s retries delay0).result.address = a
    ∧ (createAccount a p s retries delay0).result.password = p :=
  cliAux_address a p s retries retries 1 delay0 0

theorem singleAux_zero_step (a p : String) (s : Nat → AttemptBehavior)
    (delay0 maxRetries slept fuel : Nat) :
    singleAux a p s delay0 maxRetries 0 slept (fuel + 1)
      = (if (createMailTmAccount a p (s 0)).success = true then
          ⟨createMailTmAccount a p (s 0), 1, slept + delay0⟩
        else if hasSubstr (createMailTmAccount a p (s 0)).message "429"
            && decide (0 < maxRetries) then
          singleAux a p s delay0 maxRetries 1 (slept + delay0) fuel
        else ⟨createMailTmAccount a p (s 0), 1, slept + delay0⟩) := by
  simp [singleAux]

/-- Claim C1: for every ordered request list of length n, the batch run never
aborts early: it returns a report with exactly n ledger entries, entry i being
the `createAccount` record of request i (carrying that request's address and
password), and successCount + failCount equals n, whatever the individual
outcomes are. -/
theorem batchRunner_complete_ordered_ledger
    (items : List (ProvisionRequest × (Nat → AttemptBehavior)))
    (retries delay0 : Nat) :
    (runBatch items retries delay0).results.length = items.length
    ∧ (runBatch items retries delay0).successCount
        + (runBatch items retries delay0).failCount = items.length
    ∧ (∀ i : Nat, (runBatch items retries delay0).results[i]?
        = items[i]?.map
            (fun (it : ProvisionRequest × (Nat → AttemptBehavior)) =>
              (createAccount it.1.address it.1.password it.2 retries delay0).result))
    ∧ (∀ i : Nat,
        (runBatch items retries delay0).results[i]?.map
            (fun r => (r.address, r.password))
          = items[i]?.map
              (fun (it : ProvisionRequest × (Nat → AttemptBehavior)) =>
                (it.1.address, it.1.password))) := by
  refine ⟨runBatch_length items retries delay0, runBatch_counts items retries delay0,
    runBatch_getElem items retries delay0, ?_⟩
  intro i
  rw [runBatch_getElem items retries delay0 i]
  cases h : items[i]? with
  | none => rfl
  | some it =>
    have h1 := createAccount_address it.1.address it.1.password it.2 retries delay0
    simp [h1.1, h1.2]

/-- Claim C2 (evaluation at the failing input): with retry budget 7 and every
attempt answered HTTP 429, the workflow governor performs 8 = R + 1 creation
attempts but returns the final attempt's rate-limit diagnostic
`Failed: 429 - rate limited` rather than a max-retries tag; its
`Max retries exceeded due to rate limiting` record is unreachable for every
stream, budget and delay; and the CLI script's governor performs only
R = 7 attempts before returning `Max retries reached`. -/
theorem retry_exhaustion_evaluated :
    ((createSingleAccount "a" "p" allRateLimited 1 7).attempts = 8
      ∧ (createSingleAccount "a" "p" allRateLimited 1 7).result.success = false
      ∧ (createSingleAccount "a" "p" allRateLimited 1 7).result.message
          = "Failed: 429 - rate limited")
    ∧ ((createAccount "a" "p" allRateLimited 7 1).attempts = 7
      ∧ (createAccount "a" "p" allRateLimited 7 1).result.success = false
      ∧ (createAccount "a" "p" allRateLimited 7 1).result.message
          = "Max retries reached")
    ∧ (∀ (a p : String) (s : Nat → AttemptBehavior) (delay0 maxRetries : Nat),
        ((createSingleAccount a p s delay0 maxRetries).result.message
          == "Max retries exceeded due to rate limiting") = false) := by
  refine ⟨by decide, by decide, ?_⟩
  intro a p s delay0 maxRetries
  exact singleAux_message_ne_dead a p s delay0 maxRetries
    (maxRetries + 1) 0 0 (by omega) (by omega)

/-- Claim C7: the existence probe is total and boolean: it returns `true`
exactly when the upstream token endpoint answers with a 2xx status, and
`false` on a thrown network error or any non-2xx response. -/
theorem probe_total_boolean (a p : String) (b : AttemptBehavior) :
    checkAccountExists a p b = true
      ↔ ∃ status body ident, b = AttemptBehavior.response status body ident
          ∧ 200 ≤ status ∧ status ≤ 299 := by
  cases b with
  | networkError msg =>
    simp [checkAccountExists]
  | response status body ident =>
    simp only [checkAccountExists, isOk, Bool.and_eq_true, decide_eq_true_eq]
    constructor
    · rintro ⟨h1, h2⟩
      exact ⟨status, body, ident, rfl, h1, h2⟩
    · rintro ⟨s', b', i', heq, h1, h2⟩
      cases heq
      exact ⟨h1, h2⟩

/-- Claim C8: for every input ledger, including the empty one, the
aggregator's created count equals the number of entries whose classified
outcome is Created or AlreadyExists, its failed count equals the number of
all other entries, and the two counts sum to the number of entries. -/
theorem aggregator_partition_counts
    (entries : List (ProvisionRequest × AttemptBehavior)) :
    (exportAccountsToFile (entries.map
        (fun e => createMailTmAccount e.1.address e.1.password e.2))).totalCreated
      = (entries.filter (fun e => isSuccessOutcome (classify e.2))).length
    ∧ (exportAccountsToFile (entries.map
        (fun e => createMailTmAccount e.1.address e.1.password e.2))).totalFailed
      = (entries.filter (fun e => !isSuccessOutcome (classify e.2))).length
    ∧ (exportAccountsToFile (entries.map
        (fun e => createMailTmAccount e.1.address e.1.password e.2))).totalCreated
      + (exportAccountsToFile (entries.map
        (fun e => createMailTmAccount e.1.address e.1.password e.2))).totalFailed
      = entries.length := by
  have h1 : (exportAccountsToFile (entries.map
      (fun e => createMailTmAccount e.1.address e.1.password e.2))).totalCreated
      = (entries.filter (fun e => isSuccessOutcome (classify e.2))).length := by
    simp only [exportAccountsToFile, List.filter_map, List.length_map]
    congr 1
    apply List.filter_congr
    intro e _
    exact success_eq_classify e.1.address e.1.password e.2
  have h2 : (exportAccountsToFile (entries.map
      (fun e => createMailTmAccount e.1.address e.1.password e.2))).totalFailed
      = (entries.filter (fun e => !isSuccessOutcome (classify e.2))).length := by
    simp only [exportAccountsToFile, List.filter_map, List.length_map]
    congr 1
    apply List.filter_congr
    intro e _
    simp only [Function.comp_apply]
    rw [success_eq_classify e.1.address e.1.password e.2]
  refine ⟨h1, h2, ?_⟩
  rw [h1, h2]
  exact (List.length_eq_length_filter_add
    (fun e => isSuccessOutcome (classify e.2)) (l := entries)).symm

/-- Claim C9 (amended): for every request, the total time spent sleeping
inside the workflow retry governor (initial pacing plus all backoff waits)
is at most D * 2 ^ R, where D is the base delay and R the retry budget.
The spec's stated bound D * (2 ^ R - 1) omits the initial pacing delay. -/
theorem governor_sleep_bounded (a p : String) (s : Nat → AttemptBehavior)
    (delay0 maxRetries : Nat) :
    (createSingleAccount a p s delay0 maxRetries).totalSleep
      ≤ delay0 * 2 ^ maxRetries := by
  have hone : 1 ≤ 2 ^ maxRetries := Nat.one_le_two_pow
  have hD : delay0 ≤ delay0 * 2 ^ maxRetries := by
    calc delay0 = delay0 * 1 := by ring
      _ ≤ delay0 * 2 ^ maxRetries := Nat.mul_le_mul_left _ hone
  rw [createSingleAccount, singleAux_zero_step]
  split
  · simpa using hD
  · split
    · have hb := singleAux_sleep_le a p s delay0 maxRetries maxRetries 1
        (0 + delay0) (by omega)
      refine le_trans hb (le_of_eq ?_)
      obtain ⟨e, he⟩ : ∃ e, 2 ^ maxRetries = e + 1 := ⟨2 ^ maxRetries - 1, by omega⟩
      rw [he]
      simp only [Nat.add_sub_cancel, pow_zero]
      ring
    · simpa using hD

/-- Claim C9 (counterexample to the stated bound): with D = 1 and R = 7 an
unbroken stream of 429 responses makes the workflow governor sleep a total
of 128 = D * 2 ^ R time units, strictly more than the claimed bound
D * (2 ^ R - 1) = 127. -/
theorem governor_sleep_bound_counterexample :
    (createSingleAccount "a" "p" allRateLimited 1 7).totalSleep = 1 * 2 ^ 7
    ∧ 1 * (2 ^ 7 - 1) < (createSingleAccount "a" "p" allRateLimited 1 7).totalSleep := by
  decide

/-- Claim C10: for every input request and every behavior of the upstream,
the records returned by the workflow creation tool, by the workflow retry
step and by the CLI script's creation loop all carry the input's address and
password unchanged. -/
theorem result_preserves_request (a p : String) (b : AttemptBehavior)
    (s s' : Nat → AttemptBehavior) (retries delay0 maxRetries : Nat) :
    (createMailTmAccount a p b).address = a
    ∧ (createMailTmAccount a p b).password = p
    ∧ (createAccount a p s retries delay0).result.address = a
    ∧ (createAccount a p s retries delay0).result.password = p
    ∧ (createSingleAccount a p s' delay0 maxRetries).result.address = a
    ∧ (createSingleAccount a p s' delay0 maxRetries).result.password = p := by
  have h1 := createAccount_address a p s retries delay0
  have h2 := singleAux_address a p s' delay0 maxRetries (maxRetries + 1) 0 0
  exact ⟨createMailTmAccount_address a p b, createMailTmAccount_password a p b,
    h1.1, h1.2, h2.1, h2.2⟩

theorem cliAux_step_created (a p : String) (s : Nat → AttemptBehavior)
    (retries attempt delay slept fuel : Nat) (h0 : s attempt = createdResp) :
    cliAux a p s retries attempt delay slept (fuel + 1)
      = ⟨⟨a, p, true, "Created"⟩, attempt, slept⟩ := by
  simp only [cliAux, h0, createdResp]
  rw [if_pos (by decide)]

theorem cliAux_step_server (a p : String) (s : Nat → AttemptBehavior)
    (retries attempt delay slept fuel : Nat) (h0 : s attempt = serverErrorResp) :
    cliAux a p s retries attempt delay slept (fuel + 1)
      = ⟨⟨a, p, false, "HTTP " ++ decRepr 500 ++ ": " ++ "internal error"⟩,
          attempt, slept⟩ := by
  simp only [cliAux, h0, serverErrorResp]
  rw [if_neg (by decide), if_neg (by decide), if_neg (by decide)]

theorem cliAux_step_dup (a p : String) (s : Nat → AttemptBehavior)
    (retries attempt delay slept fuel : Nat) (body ident : String)
    (h0 : s attempt = .response 422 body ident)
    (hb : hasSubstr body "already used" = true) :
    cliAux a p s retries attempt delay slept (fuel + 1)
      = ⟨⟨a, p, true, "Already exists"⟩, attempt, slept⟩ := by
  simp only [cliAux, h0]
  rw [if_neg (by decide), if_pos (by simp [hb])]

/-- Claim C3: an HTTP 422 response whose body contains the substring
"already used" is classified as already-existing and reported as a success,
both by the workflow tool and, at any attempt number k of the CLI retry
loop (after k - 1 rate-limited attempts), by the CLI script. -/
theorem already_used_classified_success (a p body ident : String)
    (k retries delay0 : Nat) (hk1 : 1 ≤ k) (hk2 : k ≤ retries)
    (hb : hasSubstr body "already used" = true) :
    createMailTmAccount a p (.response 422 body ident)
      = ⟨a, p, true, "already-exists", "Account already exists"⟩
    ∧ (createAccount a p (rateThenDup k body ident) retries delay0).result
      = ⟨a, p, true, "Already exists"⟩
    ∧ (createAccount a p (rateThenDup k body ident) retries delay0).attempts = k := by
  have hmail : createMailTmAccount a p (.response 422 body ident)
      = ⟨a, p, true, "already-exists", "Account already exists"⟩ := by
    simp [createMailTmAccount, isOk, hb]
  have hskip := cliAux_skip_rl a p (rateThenDup k body ident) retries
    (k - 1) 1 delay0 0 retries
    (fun j hj1 hj2 => by simp [rateThenDup, show j < k from by omega])
    (by omega)
  have hk' : 1 + (k - 1) = k := by omega
  obtain ⟨f, hf⟩ : ∃ f, retries - (k - 1) = f + 1 := ⟨retries - (k - 1) - 1, by omega⟩
  have hstream : rateThenDup k body ident k = AttemptBehavior.response 422 body ident := by
    simp [rateThenDup]
  have hrun : createAccount a p (rateThenDup k body ident) retries delay0
      = ⟨⟨a, p, true, "Already exists"⟩, k, 0 + delay0 * (2 ^ (k - 1) - 1)⟩ := by
    rw [createAccount, hskip, hk', hf, cliAux_step_dup a p _ retries k _ _ f body ident
      hstream hb]
  rw [hrun]
  exact ⟨hmail, rfl, rfl⟩

/-- Claim C3 witness: at attempt number 3 with budget 7, base delay 1 and
body "This address is already used.", the 422 response is reported as an
already-existing success by both implementations. -/
theorem already_used_classified_success_witness :
    (1 ≤ 3 ∧ 3 ≤ 7
      ∧ hasSubstr "This address is already used." "already used" = true)
    ∧ (createMailTmAccount "a" "p"
        (.response 422 "This address is already used." "")
        = ⟨"a", "p", true, "already-exists", "Account already exists"⟩
      ∧ (createAccount "a" "p"
          (rateThenDup 3 "This address is already used." "") 7 1).result
        = ⟨"a", "p", true, "Already exists"⟩
      ∧ (createAccount "a" "p"
          (rateThenDup 3 "This address is already used." "") 7 1).attempts = 3) :=
  ⟨⟨by decide, by decide, by decide⟩,
    already_used_classified_success "a" "p" "This address is already used." ""
      3 7 1 (by decide) (by decide) (by decide)⟩

/-- Claim C4: the workflow retry governor waits the base delay D once before
the first attempt (an immediate success sleeps exactly D and reports 1
attempt), and backs off exponentially after each rate-limited outcome: on
the outcome sequence [RateLimited, RateLimited, Created] it sleeps a total
of D + D * 2 ^ 0 + D * 2 ^ 1 = 4 * D and reports 3 attempts. -/
theorem governor_backoff_schedule (a p : String) (delay0 : Nat) :
    ((createSingleAccount a p (rateThenCreated 2) delay0 7).totalSleep = 4 * delay0
     ∧ (createSingleAccount a p (rateThenCreated 2) delay0 7).attempts = 3)
    ∧ ((createSingleAccount a p (rateThenCreated 0) delay0 7).totalSleep = delay0
     ∧ (createSingleAccount a p (rateThenCreated 0) delay0 7).attempts = 1) := by
  have hr : createMailTmAccount a p rateLimitedResp
      = ⟨a, p, false, "", "Failed: 429 - rate limited"⟩ := rfl
  have hc : createMailTmAccount a p createdResp
      = ⟨a, p, true, "acct-1", "Account created successfully"⟩ := rfl
  have h429 : hasSubstr "Failed: 429 - rate limited" "429" = true := by decide
  refine ⟨⟨?_, ?_⟩, ?_, ?_⟩
  · simp [createSingleAccount, singleAux, rateThenCreated, hr, hc, h429]
    ring
  · simp [createSingleAccount, singleAux, rateThenCreated, hr, hc, h429]
  · simp [createSingleAccount, singleAux, rateThenCreated, hr, hc, h429]
  · simp [createSingleAccount, singleAux, rateThenCreated, hr, hc, h429]

/-- Claim C5 (amended): in the CLI script a network/transport exception with
attempts remaining is retried under the same doubling-backoff schedule and
budget as a rate-limited response (k exceptions followed by a success give
k + 1 attempts and the same total sleep delay0 * (2^k - 1) as k rate-limited
responses followed by a success); an HTTP 5xx response, by contrast, is an
immediate terminal failure after one attempt, and the workflow governor
terminates after one attempt on a network exception. -/
theorem transient_retry_amended (a p : String) (k retries delay0 : Nat)
    (hk : k < retries) :
    ((createAccount a p (netErrThenCreated k) retries delay0).result.success = true
     ∧ (createAccount a p (netErrThenCreated k) retries delay0).attempts = k + 1
     ∧ (createAccount a p (netErrThenCreated k) retries delay0).totalSleep
         = delay0 * (2 ^ k - 1))
    ∧ ((createAccount a p (rateThenCreated (k + 1)) retries delay0).result.success = true
     ∧ (createAccount a p (rateThenCreated (k + 1)) retries delay0).attempts = k + 1
     ∧ (createAccount a p (rateThenCreated (k + 1)) retries delay0).totalSleep
         = delay0 * (2 ^ k - 1))
    ∧ ((createAccount a p (fun _ => serverErrorResp) retries delay0).attempts = 1
     ∧ (createAccount a p (fun _ => serverErrorResp) retries delay0).result.success
         = false)
    ∧ ((createSingleAccount a p (fun _ => netFail) delay0 retries).attempts = 1
     ∧ (createSingleAccount a p (fun _ => netFail) delay0 retries).result.success
         = false) := by
  obtain ⟨f, hf⟩ : ∃ f, retries - k = f + 1 := ⟨retries - k - 1, by omega⟩
  constructor
  · have hskip := cliAux_skip_net a p (netErrThenCreated k) retries
      k 1 delay0 0 retries
      (fun j hj1 hj2 => by simp [netErrThenCreated, show j ≤ k from by omega])
      (by omega) (by omega)
    have hstream : netErrThenCreated k (1 + k) = createdResp := by
      simp [netErrThenCreated]
    have hrun : createAccount a p (netErrThenCreated k) retries delay0
        = ⟨⟨a, p, true, "Created"⟩, 1 + k, 0 + delay0 * (2 ^ k - 1)⟩ := by
      rw [createAccount, hskip, hf,
        cliAux_step_created a p _ retries (1 + k) _ _ f hstream]
    rw [hrun]
    refine ⟨rfl, ?_, ?_⟩
    · show 1 + k = k + 1
      omega
    · show 0 + delay0 * (2 ^ k - 1) = delay0 * (2 ^ k - 1)
      omega
  constructor
  · have hskip := cliAux_skip_rl a p (rateThenCreated (k + 1)) retries
      k 1 delay0 0 retries
      (fun j hj1 hj2 => by simp [rateThenCreated, show j < k + 1 from by omega])
      (by omega)
    have hstream : rateThenCreated (k + 1) (1 + k) = createdResp := by
      simp only [rateThenCreated]
      rw [if_neg (by omega)]
    have hrun : createAccount a p (rateThenCreated (k + 1)) retries delay0
        = ⟨⟨a, p, true, "Created"⟩, 1 + k, 0 + delay0 * (2 ^ k - 1)⟩ := by
      rw [createAccount, hskip, hf,
        cliAux_step_created a p _ retries (1 + k) _ _ f hstream]
    rw [hrun]
    refine ⟨rfl, ?_, ?_⟩
    · show 1 + k = k + 1
      omega
    · show 0 + delay0 * (2 ^ k - 1) = delay0 * (2 ^ k - 1)
      omega
  constructor
  · obtain ⟨r', hr'⟩ : ∃ r', retries = r' + 1 := ⟨retries - 1, by omega⟩
    have hrun : createAccount a p (fun _ => serverErrorResp) retries delay0
        = ⟨⟨a, p, false, "HTTP " ++ decRepr 500 ++ ": " ++ "internal error"⟩,
            1, 0⟩ := by
      rw [createAccount, hr',
        cliAux_step_server a p _ (r' + 1) 1 delay0 0 r' rfl]
    rw [hrun]
    exact ⟨rfl, rfl⟩
  · have hnet : createMailTmAccount a p netFail
        = ⟨a, p, false, "", "Error: fetch failed"⟩ := rfl
    have h429 : hasSubstr "Error: fetch failed" "429" = false := by decide
    constructor
    · rw [createSingleAccount, singleAux_zero_step]
      rw [hnet]
      simp [h429]
    · rw [createSingleAccount, singleAux_zero_step]
      rw [hnet]
      simp [h429]

/-- Claim C5 witness: two network exceptions then a success, with budget 7
and base delay 1, give three attempts, success, and total sleep
3 = 1 * (2^2 - 1), matching the rate-limited analog; a 5xx and a workflow
network exception each terminate after one attempt. -/
theorem transient_retry_amended_witness :
    2 < 7
    ∧ (((createAccount "a" "p" (netErrThenCreated 2) 7 1).result.success = true
     ∧ (createAccount "a" "p" (netErrThenCreated 2) 7 1).attempts = 2 + 1
     ∧ (createAccount "a" "p" (netErrThenCreated 2) 7 1).totalSleep
         = 1 * (2 ^ 2 - 1))
    ∧ ((createAccount "a" "p" (rateThenCreated (2 + 1)) 7 1).result.success = true
     ∧ (createAccount "a" "p" (rateThenCreated (2 + 1)) 7 1).attempts = 2 + 1
     ∧ (createAccount "a" "p" (rateThenCreated (2 + 1)) 7 1).totalSleep
         = 1 * (2 ^ 2 - 1))
    ∧ ((createAccount "a" "p" (fun _ => serverErrorResp) 7 1).attempts = 1
     ∧ (createAccount "a" "p" (fun _ => serverErrorResp) 7 1).result.success = false)
    ∧ ((createSingleAccount "a" "p" (fun _ => netFail) 1 7).attempts = 1
     ∧ (createSingleAccount "a" "p" (fun _ => netFail) 1 7).result.success = false)) :=
  ⟨by decide, transient_retry_amended "a" "p" 2 7 1 (by decide)⟩

/-- Claim C5 (counterexample to the stated claim): a 5xx response - a
transient error in the spec's taxonomy - is not retried even with the whole
retry budget remaining: the CLI loop with budget 7 stops after a single
attempt, and the workflow governor likewise stops after one attempt on a
network exception. -/
theorem transient_not_retried_counterexample :
    (createAccount "a" "p" (fun _ => serverErrorResp) 7 1).attempts = 1
    ∧ (createAccount "a" "p" (fun _ => serverErrorResp) 7 1).result.success = false
    ∧ (createSingleAccount "a" "p" (fun _ => netFail) 1 7).attempts = 1
    ∧ (createSingleAccount "a" "p" (fun _ => netFail) 1 7).result.success = false := by
  decide

/-- Claim C6: for every count ≥ 1 the CLI generator produces exactly count
addresses; the i-th (0-based) is the base followed by the zero-padded index
i + 1 and the domain, where the pad is the decimal form of i + 1 preceded by
zeros up to the uniform width padSizeFor count = max 2 (digits of count),
and every padded index has exactly that width, which is at least 2. -/
theorem generator_padded_sequence (base dom : String) (count : Nat)
    (hc : 1 ≤ count) :
    (genAddresses base dom count).length = count
    ∧ (∀ i : Nat, i < count → (genAddresses base dom count)[i]?
        = some (base ++ pad (i + 1) (padSizeFor count) ++ "@" ++ dom))
    ∧ (∀ i : Nat, i < count →
        pad (i + 1) (padSizeFor count)
          = zeros (padSizeFor count - digitLen (i + 1)) ++ decRepr (i + 1)
        ∧ (pad (i + 1) (padSizeFor count)).length = padSizeFor count)
    ∧ 2 ≤ padSizeFor count := by
  refine ⟨by simp [genAddresses], ?_, ?_, padSizeFor_ge_two count⟩
  · intro i hi
    simp [genAddresses, List.getElem?_range, hi]
  · intro i hi
    have hle : digitLen (i + 1) ≤ padSizeFor count :=
      digitLen_le_padSizeFor (by omega)
    exact ⟨pad_eq_zeros (i + 1) (padSizeFor count), pad_length _ _ hle⟩

/-- Claim C6 witness: with base "abc", domain "x.com" and count 5 the
generator yields five addresses abc01@x.com .. abc05@x.com of uniform
width-2 suffixes. -/
theorem generator_padded_sequence_witness :
    1 ≤ 5
    ∧ ((genAddresses "abc" "x.com" 5).length = 5
    ∧ (∀ i : Nat, i < 5 → (genAddresses "abc" "x.com" 5)[i]?
        = some ("abc" ++ pad (i + 1) (padSizeFor 5) ++ "@" ++ "x.com"))
    ∧ (∀ i : Nat, i < 5 →
        pad (i + 1) (padSizeFor 5)
          = zeros (padSizeFor 5 - digitLen (i + 1)) ++ decRepr (i + 1)
        ∧ (pad (i + 1) (padSizeFor 5)).length = padSizeFor 5)
    ∧ 2 ≤ padSizeFor 5) :=
  ⟨by decide, generator_padded_sequence "abc" "x.com" 5 (by decide)⟩

end MailTm
